import Mathlib

/-!
Verification of the tvfmt TV-episode renaming tool.

The development shallowly embeds the Python sources (`tvfmt/main.py`,
`tvfmt/utils.py`, `tvfmt/api.py`, `tvfmt/config.py`): strings are Lean
`String`s (reasoned about through their character lists), the filesystem and
the HTTP layer are explicit data passed to the embedded functions, and
fallible operations return `Option`/`Except`.
-/

namespace Tvfmt

/-- Numeric value of a decimal digit character, as Python `int` reads it. -/
def digitVal (c : Char) : Nat := c.toNat - 48

/-- Python `int` applied to a two-character digit string `ab`
(leading zeros are ignored numerically). -/
def int2 (a b : Char) : Nat := 10 * digitVal a + digitVal b

/-- Boolean test that a six-character window matches the regular expression
`[Ss]\d\x7b2\x7d[Ee]\d\x7b2\x7d` used in `TvFormatter.parse_episode_file`
(`main.py` line 139); `\d` is modelled as the ASCII digits `0`-`9`. -/
def patCheck (c0 c1 c2 c3 c4 c5 : Char) : Bool :=
  (c0 == 'S' || c0 == 's') && c1.isDigit && c2.isDigit &&
  (c3 == 'E' || c3 == 'e') && c4.isDigit && c5.isDigit

/-- Propositional form of `patCheck`: the spec-side description of one
occurrence of the pattern. -/
def isPatWindow (c0 c1 c2 c3 c4 c5 : Char) : Prop :=
  (c0 = 'S' ∨ c0 = 's') ∧ c1.isDigit = true ∧ c2.isDigit = true ∧
  (c3 = 'E' ∨ c3 = 'e') ∧ c4.isDigit = true ∧ c5.isDigit = true

instance (c0 c1 c2 c3 c4 c5 : Char) : Decidable (isPatWindow c0 c1 c2 c3 c4 c5) := by
  unfold isPatWindow
  infer_instance

/-- Attempt of the regex engine to match `[Ss]\d\x7b2\x7d[Ee]\d\x7b2\x7d` at the
head of the character list; on success it returns the season/episode numbers
that `parse_episode_file` extracts from the matched slice
(`int(match[0][1:3])`, `int(match[0][4:])`, `main.py` lines 142-143). -/
def matchAt : List Char → Option (Nat × Nat)
  | c0 :: c1 :: c2 :: c3 :: c4 :: c5 :: _ =>
    if patCheck c0 c1 c2 c3 c4 c5 then some (int2 c1 c2, int2 c4 c5) else none
  | _ => none

/-- Left-to-right scan for the first match of the pattern, as
`re.findall` produces its leftmost match. -/
def scan : List Char → Option (Nat × Nat)
  | [] => none
  | c :: cs =>
    match matchAt (c :: cs) with
    | some r => some r
    | none => scan cs

/-- `TvFormatter.parse_episode_file` (`main.py` lines 137-144): find the first
occurrence of `[Ss]\d\x7b2\x7d[Ee]\d\x7b2\x7d` in the filename and read its two
digit groups as integers; `None` (here `none`) when there is no match. -/
def parse_episode_file (filename : String) : Option (Nat × Nat) :=
  scan filename.data

/-- Spec-side notion: the pattern `[Ss]\d\x7b2\x7d[Ee]\d\x7b2\x7d` occurs in
`cs` starting at position `i`. -/
def occursAt (cs : List Char) (i : Nat) : Prop :=
  ∃ c0 c1 c2 c3 c4 c5 rest,
    cs.drop i = c0 :: c1 :: c2 :: c3 :: c4 :: c5 :: rest ∧
    isPatWindow c0 c1 c2 c3 c4 c5

theorem patCheck_iff (c0 c1 c2 c3 c4 c5 : Char) :
    patCheck c0 c1 c2 c3 c4 c5 = true ↔ isPatWindow c0 c1 c2 c3 c4 c5 := by
  simp [patCheck, isPatWindow, Bool.and_eq_true, Bool.or_eq_true, beq_iff_eq,
    and_assoc]

theorem matchAt_eq_some_iff (ds : List Char) (s e : Nat) :
    matchAt ds = some (s, e) ↔
      ∃ c0 c1 c2 c3 c4 c5 rest,
        ds = c0 :: c1 :: c2 :: c3 :: c4 :: c5 :: rest ∧
        isPatWindow c0 c1 c2 c3 c4 c5 ∧ s = int2 c1 c2 ∧ e = int2 c4 c5 := by
  constructor
  · intro h
    rcases ds with _ | ⟨c0, _ | ⟨c1, _ | ⟨c2, _ | ⟨c3, _ | ⟨c4, _ | ⟨c5, rest⟩⟩⟩⟩⟩⟩ <;>
      simp [matchAt] at h
    exact ⟨c0, c1, c2, c3, c4, c5, rest, rfl,
      (patCheck_iff _ _ _ _ _ _).mp h.1, h.2.1.symm, h.2.2.symm⟩
  · rintro ⟨c0, c1, c2, c3, c4, c5, rest, rfl, hw, rfl, rfl⟩
    have hp := (patCheck_iff c0 c1 c2 c3 c4 c5).mpr hw
    simp [matchAt, hp]

theorem matchAt_eq_none_iff (ds : List Char) :
    matchAt ds = none ↔ ¬ ∃ c0 c1 c2 c3 c4 c5 rest,
      ds = c0 :: c1 :: c2 :: c3 :: c4 :: c5 :: rest ∧
      isPatWindow c0 c1 c2 c3 c4 c5 := by
  constructor
  · rintro h ⟨c0, c1, c2, c3, c4, c5, rest, rfl, hw⟩
    rw [show matchAt (c0 :: c1 :: c2 :: c3 :: c4 :: c5 :: rest) =
        if patCheck c0 c1 c2 c3 c4 c5 then some (int2 c1 c2, int2 c4 c5) else none
      from rfl, if_pos ((patCheck_iff _ _ _ _ _ _).mpr hw)] at h
    exact Option.noConfusion h
  · intro h
    rcases hm : matchAt ds with _ | ⟨s, e⟩
    · rfl
    · obtain ⟨c0, c1, c2, c3, c4, c5, rest, hd, hw, _, _⟩ :=
        (matchAt_eq_some_iff ds s e).mp hm
      exact absurd ⟨c0, c1, c2, c3, c4, c5, rest, hd, hw⟩ h

theorem occursAt_iff (cs : List Char) (i : Nat) :
    occursAt cs i ↔ matchAt (cs.drop i) ≠ none := by
  rw [Ne, matchAt_eq_none_iff, not_not]
  exact Iff.rfl

theorem scan_eq_none_iff (cs : List Char) :
    scan cs = none ↔ ∀ i, matchAt (cs.drop i) = none := by
  induction cs with
  | nil =>
    simp [scan, matchAt]
  | cons c cs ih =>
    constructor
    · intro h i
      rcases hm : matchAt (c :: cs) with _ | r
      · rw [scan, hm] at h
        cases i with
        | zero => exact hm
        | succ i => exact (ih.mp h) i
      · rw [scan, hm] at h
        exact Option.noConfusion h
    · intro h
      have h0 := h 0
      rw [List.drop_zero] at h0
      rw [scan, h0]
      exact ih.mpr fun i => h (i + 1)

theorem scan_leftmost (cs : List Char) (i s e : Nat)
    (hm : matchAt (cs.drop i) = some (s, e))
    (hmin : ∀ j, j < i → matchAt (cs.drop j) = none) :
    scan cs = some (s, e) := by
  induction cs generalizing i with
  | nil =>
    rw [List.drop_nil] at hm
    exact absurd hm (by simp [matchAt])
  | cons c cs ih =>
    cases i with
    | zero =>
      rw [List.drop_zero] at hm
      rw [scan, hm]
    | succ i =>
      have h0 : matchAt (c :: cs) = none := by
        have := hmin 0 (Nat.succ_pos _)
        rwa [List.drop_zero] at this
      rw [scan, h0]
      exact ih i hm fun j hj => hmin (j + 1) (Nat.succ_lt_succ hj)

/-- C2: for every filename containing an occurrence of the pattern
`[Ss]\d\x7b2\x7d[Ee]\d\x7b2\x7d`, `parse_episode_file` returns the pair of
integers read from the two digit groups of the leftmost occurrence (leading
zeros ignored, `int2` being plain decimal reading); for every filename with
no occurrence it returns no match. -/
theorem parse_episode_file_spec (filename : String) :
    ((∀ i, ¬ occursAt filename.data i) → parse_episode_file filename = none) ∧
    (∀ i, occursAt filename.data i →
      (∀ j, j < i → ¬ occursAt filename.data j) →
      ∃ c0 c1 c2 c3 c4 c5 rest,
        filename.data.drop i = c0 :: c1 :: c2 :: c3 :: c4 :: c5 :: rest ∧
        parse_episode_file filename = some (int2 c1 c2, int2 c4 c5)) := by
  constructor
  · intro h
    unfold parse_episode_file
    rw [scan_eq_none_iff]
    intro i
    have := h i
    rw [occursAt_iff, not_not] at this
    exact this
  · intro i hi hmin
    obtain ⟨c0, c1, c2, c3, c4, c5, rest, hd, hw⟩ := hi
    refine ⟨c0, c1, c2, c3, c4, c5, rest, hd, ?_⟩
    unfold parse_episode_file
    refine scan_leftmost _ i _ _ ?_ ?_
    · exact (matchAt_eq_some_iff _ _ _).mpr
        ⟨c0, c1, c2, c3, c4, c5, rest, hd, hw, rfl, rfl⟩
    · intro j hj
      have := hmin j hj
      rw [occursAt_iff, not_not] at this
      exact this

/-- Witness for C2 at the spec's own example `Show.Name.S01E05.mkv`:
the pattern occurs first at index 10 and the parser returns season 1,
episode 5. -/
theorem parse_episode_file_spec_witness :
    parse_episode_file "Show.Name.S01E05.mkv" = some (1, 5) := by
  have h := (parse_episode_file_spec "Show.Name.S01E05.mkv").2 10
    ⟨'S', '0', '1', 'E', '0', '5', ['.', 'm', 'k', 'v'], by decide, by decide⟩
    (by
      intro j hj hocc
      rw [occursAt_iff] at hocc
      interval_cases j <;> exact hocc (by decide))
  obtain ⟨c0, c1, c2, c3, c4, c5, rest, hd, hp⟩ := h
  have hd' : ("Show.Name.S01E05.mkv" : String).data.drop 10 =
      'S' :: '0' :: '1' :: 'E' :: '0' :: '5' :: ['.', 'm', 'k', 'v'] := by decide
  rw [hd'] at hd
  injection hd with h0 hd
  injection hd with h1 hd
  injection hd with h2 hd
  injection hd with h3 hd
  injection hd with h4 hd
  injection hd with h5 hd
  rw [hp, ← h1, ← h2, ← h4, ← h5]
  decide

/-- Python `show_name.replace(':', '')` from `TvFormatter.format_filename`
(`main.py` line 151): remove every colon. -/
def stripColons (s : String) : String :=
  String.mk (s.data.filter (fun c => !(c == ':')))

/-- Python format spec `02` (as in `S{season_num:02}`): the decimal
representation, left-padded with `0` to a minimum width of two. -/
def pad2 (n : Nat) : String :=
  let r := Nat.repr n
  if r.length < 2 then "0" ++ r else r

/-- `TvFormatter.format_filename` (`main.py` lines 146-151): colon-stripped
show name, `" S"`, two-digit season, `"E"`, two-digit episode, a space, the
episode name, and the original extension. -/
def format_filename (show_name : String) (season_num episode_num : Nat)
    (episode_name ext : String) : String :=
  stripColons show_name ++ " S" ++ pad2 season_num ++ "E" ++ pad2 episode_num ++
    " " ++ episode_name ++ ext

/-- Spec-side zero padding: prepend zeros until the digit string has
length two. -/
def zeroPad2 (ds : List Char) : List Char :=
  List.replicate (2 - ds.length) '0' ++ ds

theorem toDigitsCore_length_le (b : Nat) :
    ∀ (f n : Nat) (l : List Char), l.length ≤ (Nat.toDigitsCore b f n l).length := by
  intro f
  induction f with
  | zero => intro n l; exact Nat.le_refl _
  | succ f ih =>
    intro n l
    show l.length ≤ (if n / b = 0 then Nat.digitChar (n % b) :: l
      else Nat.toDigitsCore b f (n / b) (Nat.digitChar (n % b) :: l)).length
    by_cases hz : n / b = 0
    · rw [if_pos hz]
      exact Nat.le_succ _
    · rw [if_neg hz]
      exact Nat.le_trans (Nat.le_succ _) (ih (n / b) (Nat.digitChar (n % b) :: l))

theorem repr_length_pos (n : Nat) : 0 < (Nat.repr n).length := by
  show 0 < (Nat.toDigits 10 n).asString.length
  rw [Nat.toDigits]
  show 0 < (Nat.toDigitsCore 10 (n + 1) n []).length
  show 0 < (if n / 10 = 0 then Nat.digitChar (n % 10) :: ([] : List Char)
    else Nat.toDigitsCore 10 n (n / 10) [Nat.digitChar (n % 10)]).length
  by_cases hz : n / 10 = 0
  · rw [if_pos hz]
    exact Nat.succ_pos _
  · rw [if_neg hz]
    exact Nat.lt_of_lt_of_le (Nat.succ_pos 0)
      (toDigitsCore_length_le 10 n (n / 10) [Nat.digitChar (n % 10)])

theorem pad2_data (n : Nat) : (pad2 n).data = zeroPad2 (Nat.repr n).data := by
  have hpos : 0 < (Nat.repr n).data.length := repr_length_pos n
  unfold pad2 zeroPad2
  by_cases hl : (Nat.repr n).length < 2
  · rw [if_pos hl]
    have h1 : (Nat.repr n).data.length = 1 := by
      have : (Nat.repr n).length = (Nat.repr n).data.length := rfl
      omega
    rw [String.data_append, h1]
    rfl
  · rw [if_neg hl]
    have h2 : 2 - (Nat.repr n).data.length = 0 := by
      have : (Nat.repr n).length = (Nat.repr n).data.length := rfl
      omega
    rw [h2, List.replicate_zero, List.nil_append]

/-- C4: the filename computed by `format_filename` is the show name with all
colons removed, then a space, `S`, the season's decimal digits zero-padded to
two, `E`, the episode's digits zero-padded to two, a space, the episode name,
and the extension verbatim; in particular the spec's example holds. -/
theorem format_filename_spec (show_name episode_name ext : String) (s e : Nat) :
    (format_filename show_name s e episode_name ext).data =
      show_name.data.filter (fun c => c ≠ ':') ++
      [' ', 'S'] ++ zeroPad2 (Nat.repr s).data ++ ['E'] ++ zeroPad2 (Nat.repr e).data ++
      [' '] ++ episode_name.data ++ ext.data ∧
    format_filename "Show: Title" 1 5 "Pilot" ".mkv" = "Show Title S01E05 Pilot.mkv" := by
  constructor
  · show (stripColons show_name ++ " S" ++ pad2 s ++ "E" ++ pad2 e ++
        " " ++ episode_name ++ ext).data = _
    rw [String.data_append, String.data_append, String.data_append,
      String.data_append, String.data_append, String.data_append,
      String.data_append, pad2_data, pad2_data]
    have hstrip : (stripColons show_name).data =
        show_name.data.filter (fun c => c ≠ ':') := by
      show show_name.data.filter (fun c => !(c == ':')) = _
      simp only [ne_eq, decide_not, beq_eq_decide]
      congr 1
      funext c
      congr 1
      exact decide_eq_decide.mpr Iff.rfl
    rw [hstrip]
  · decide

theorem matchAt_append_space (ys tl : List Char) (h : matchAt ys = none) :
    matchAt (ys ++ ' ' :: tl) = none := by
  have hS : ((' ' : Char) == 'S') = false := by decide
  have hs : ((' ' : Char) == 's') = false := by decide
  have hE : ((' ' : Char) == 'E') = false := by decide
  have he : ((' ' : Char) == 'e') = false := by decide
  have hd : (' ' : Char).isDigit = false := by decide
  rcases ys with _ | ⟨a, _ | ⟨b, _ | ⟨c, _ | ⟨d, _ | ⟨e, _ | ⟨f, t⟩⟩⟩⟩⟩⟩
  · rcases tl with _ | ⟨x1, _ | ⟨x2, _ | ⟨x3, _ | ⟨x4, _ | ⟨x5, r⟩⟩⟩⟩⟩ <;>
      simp [matchAt, patCheck, hS, hs, hE, he, hd]
  · rcases tl with _ | ⟨x1, _ | ⟨x2, _ | ⟨x3, _ | ⟨x4, r⟩⟩⟩⟩ <;>
      simp [matchAt, patCheck, hS, hs, hE, he, hd]
  · rcases tl with _ | ⟨x1, _ | ⟨x2, _ | ⟨x3, r⟩⟩⟩ <;>
      simp [matchAt, patCheck, hS, hs, hE, he, hd]
  · rcases tl with _ | ⟨x1, _ | ⟨x2, r⟩⟩ <;>
      simp [matchAt, patCheck, hS, hs, hE, he, hd]
  · rcases tl with _ | ⟨x1, r⟩ <;>
      simp [matchAt, patCheck, hS, hs, hE, he, hd]
  · simp [matchAt, patCheck, hS, hs, hE, he, hd]
  · exact h

/-- Executable check that `pad2 n` is a two-digit string reading back to
`n`. -/
def pad2Check (n : Nat) : Bool :=
  match (pad2 n).data with
  | [a, b] => a.isDigit && b.isDigit && (int2 a b == n)
  | _ => false

theorem pad2Check_lt_100 : ∀ n, n < 100 → pad2Check n = true := by decide

theorem pad2_digits (n : Nat) (h : n < 100) :
    ∃ a b, (pad2 n).data = [a, b] ∧ a.isDigit = true ∧ b.isDigit = true ∧
      int2 a b = n := by
  have hc := pad2Check_lt_100 n h
  unfold pad2Check at hc
  rcases hd : (pad2 n).data with _ | ⟨a, _ | ⟨b, _ | ⟨c, t⟩⟩⟩ <;> rw [hd] at hc
  · exact Bool.noConfusion hc
  · exact Bool.noConfusion hc
  · simp only [Bool.and_eq_true, beq_iff_eq] at hc
    exact ⟨a, b, rfl, hc.1.1, hc.1.2, hc.2⟩
  · exact Bool.noConfusion hc

/-- C9 (amended): if the colon-stripped show name contains no occurrence of
the pattern, then for season and episode numbers below 100 parsing the
filename produced by `format_filename` returns exactly that season/episode
pair, so re-running the plan builder over already-renamed files re-derives
the same numbers. The colon stripping is what forces the amendment: a raw
show name without an occurrence can acquire one once its colons are
removed. -/
theorem parse_format_roundtrip (show_name episode_name ext : String) (s e : Nat)
    (hs : s < 100) (he : e < 100)
    (h : parse_episode_file (stripColons show_name) = none) :
    parse_episode_file (format_filename show_name s e episode_name ext) =
      some (s, e) := by
  obtain ⟨a1, a2, hsa, ha1, ha2, hva⟩ := pad2_digits s hs
  obtain ⟨b1, b2, hsb, hb1, hb2, hvb⟩ := pad2_digits e he
  have hdata : (format_filename show_name s e episode_name ext).data =
      (stripColons show_name).data ++
        ' ' :: 'S' :: a1 :: a2 :: 'E' :: b1 :: b2 :: ' ' ::
          (episode_name.data ++ ext.data) := by
    show (stripColons show_name ++ " S" ++ pad2 s ++ "E" ++ pad2 e ++
        " " ++ episode_name ++ ext).data = _
    rw [String.data_append, String.data_append, String.data_append,
      String.data_append, String.data_append, String.data_append,
      String.data_append, hsa, hsb]
    simp
  unfold parse_episode_file at h ⊢
  rw [hdata]
  set L := (stripColons show_name).data with hL
  have hscan := (scan_eq_none_iff L).mp h
  apply scan_leftmost _ (L.length + 1)
  · rw [List.drop_append 1]
    have hpc : patCheck 'S' a1 a2 'E' b1 b2 = true := by
      simp [patCheck, ha1, ha2, hb1, hb2]
    show (if patCheck 'S' a1 a2 'E' b1 b2
        then some (int2 a1 a2, int2 b1 b2) else none) = some (s, e)
    rw [if_pos hpc, hva, hvb]
  · intro j hj
    rw [List.drop_append_of_le_length (by omega)]
    exact matchAt_append_space _ _ (hscan j)

/-- Counterexample to C9 as stated: the show name `S0:1E07` contains no
occurrence of the pattern (the colon breaks it), yet stripping colons during
formatting creates the occurrence `S01E07` at the front, so parsing the
formatted name for season 2, episode 3 returns `(1, 7)`, not `(2, 3)`. -/
theorem parse_format_roundtrip_counterexample :
    parse_episode_file "S0:1E07" = none ∧
    parse_episode_file (format_filename "S0:1E07" 2 3 "Pilot" ".mkv") =
      some (1, 7) ∧
    parse_episode_file (format_filename "S0:1E07" 2 3 "Pilot" ".mkv") ≠
      some (2, 3) := by
  refine ⟨by decide, by decide, by decide⟩

/-- Witness for the amended C9 at a concrete input. -/
theorem parse_format_roundtrip_witness :
    parse_episode_file (format_filename "Show: Title" 1 5 "Pilot" ".mkv") =
      some (1, 5) :=
  parse_format_roundtrip "Show: Title" "Pilot" ".mkv" 1 5 (by decide) (by decide)
    (by decide)

/-- `TvEpisode` (`api.py` lines 29-36): episode name, number and trakt id.
Its Python `__str__` returns the bare name. -/
structure TvEpisode where
  name : String
  number : Nat
  id : Nat
deriving DecidableEq

/-- `utils.find_by_attr(lst, "number", value)` (`utils.py` lines 7-10)
specialised to episode lists: first element whose `number` equals `value`
(every `TvEpisode` has the attribute, so the `hasattr` guard always holds);
Python returns `None` when the loop finds nothing. -/
def find_by_attr_number : List TvEpisode → Nat → Option TvEpisode
  | [], _ => none
  | i :: rest, v => if i.number = v then some i else find_by_attr_number rest v

/-- Python `str()` applied to the lookup result inside the f-string of
`format_filename`: `str` of an episode is its name (`TvEpisode.__str__`),
and `str(None)` is the four-character text `None`. -/
def episodeNameStr : Option TvEpisode → String
  | some ep => ep.name
  | none => "None"

/-- A `pathlib.Path` within a single directory: parent directory plus final
component. -/
structure PyPath where
  parent : String
  name : String
deriving DecidableEq

/-- One entry of a directory listing as `Path.iterdir` yields it: its path
and whether it is a regular file (`Path.is_file`). -/
structure DirEntry where
  parent : String
  name : String
  isFile : Bool
deriving DecidableEq

/-- `PathChange` (`main.py` lines 55-59): an old path, a new path, and the
`is_file` flag (always `True` where the plan builder creates it). -/
structure PathChange where
  old : PyPath
  new : PyPath
  isFileFlag : Bool
deriving DecidableEq

/-- Index of the last `.` in the list, if any (Python `str.rfind`). -/
def rfindDotAux : List Char → Nat → Option Nat → Option Nat
  | [], _, acc => acc
  | c :: rest, i, acc =>
    rfindDotAux rest (i + 1) (if c = '.' then some i else acc)

/-- `pathlib.Path.suffix`: the final component's extension, i.e. the slice
from the last dot onward, provided that dot is neither the first nor the
last character; otherwise the empty string. -/
def suffix (name : String) : String :=
  match rfindDotAux name.data 0 none with
  | some i =>
    if 0 < i ∧ i < name.data.length - 1 then String.mk (name.data.drop i) else ""
  | none => ""

/-- `TvFormatter.get_file_changes` (`main.py` lines 107-121): for each file
in order, parse its name; on a match, look up the episode by number, format
the new name and emit a `PathChange` from the old path to the same parent
with the new name; files that fail to parse are skipped. -/
def get_file_changes : List DirEntry → String → List TvEpisode → List PathChange
  | [], _, _ => []
  | f :: fs, show_name, episodes =>
    match parse_episode_file f.name with
    | some (season_num, episode_num) =>
      let episode_name := episodeNameStr (find_by_attr_number episodes episode_num)
      let new_name :=
        format_filename show_name season_num episode_num episode_name (suffix f.name)
      ⟨⟨f.parent, f.name⟩, ⟨f.parent, new_name⟩, true⟩ ::
        get_file_changes fs show_name episodes
    | none => get_file_changes fs show_name episodes

/-- C3: the rename plan lists exactly the files whose names parse, in input
order, one entry per parseable file and none for the rest; the builder only
computes `PathChange` values (it has no effect on any filesystem state). -/
theorem get_file_changes_plan (files : List DirEntry) (show_name : String)
    (episodes : List TvEpisode) :
    (get_file_changes files show_name episodes).map PathChange.old =
      (files.filter (fun f => (parse_episode_file f.name).isSome)).map
        (fun f => ⟨f.parent, f.name⟩) := by
  induction files with
  | nil => rfl
  | cons f fs ih =>
    rcases hp : parse_episode_file f.name with _ | ⟨s, e⟩
    · simp [get_file_changes, hp, List.filter_cons, ih]
    · simp [get_file_changes, hp, List.filter_cons, ih]

theorem find_by_attr_number_eq_none_iff (episodes : List TvEpisode) (v : Nat) :
    find_by_attr_number episodes v = none ↔ ∀ ep ∈ episodes, ep.number ≠ v := by
  induction episodes with
  | nil => simp [find_by_attr_number]
  | cons ep rest ih =>
    by_cases h : ep.number = v
    · simp [find_by_attr_number, h]
    · simp [find_by_attr_number, h, ih]

theorem find_by_attr_number_eq_some (episodes : List TvEpisode) (v : Nat)
    (ep : TvEpisode) (h : find_by_attr_number episodes v = some ep) :
    ep.number = v ∧ ∃ pre post, episodes = pre ++ ep :: post ∧
      ∀ ep' ∈ pre, ep'.number ≠ v := by
  induction episodes with
  | nil => exact Option.noConfusion h
  | cons e0 rest ih =>
    by_cases h0 : e0.number = v
    · rw [find_by_attr_number, if_pos h0] at h
      injection h with h
      subst h
      exact ⟨h0, [], rest, rfl, by simp⟩
    · rw [find_by_attr_number, if_neg h0] at h
      obtain ⟨hnum, pre, post, hsplit, hpre⟩ := ih h
      refine ⟨hnum, e0 :: pre, post, by rw [hsplit]; rfl, ?_⟩
      intro ep' hep'
      rcases List.mem_cons.mp hep' with rfl | hmem
      · exact h0
      · exact hpre ep' hmem

/-- C5: a file that parses always yields a plan entry. When no episode in the
list carries the parsed number, the equality scan returns nothing and the new
filename is formatted with the literal text `None` in the episode-name
position, immediately before the extension; when the scan finds an episode,
it is the first one with that number and its name is used. -/
theorem get_file_changes_missing_episode (show_name : String)
    (episodes : List TvEpisode) (f : DirEntry) (s e : Nat)
    (hp : parse_episode_file f.name = some (s, e)) :
    ((∀ ep ∈ episodes, ep.number ≠ e) →
      find_by_attr_number episodes e = none ∧
      get_file_changes [f] show_name episodes =
        [⟨⟨f.parent, f.name⟩,
          ⟨f.parent, format_filename show_name s e "None" (suffix f.name)⟩, true⟩]) ∧
    (∀ ep, find_by_attr_number episodes e = some ep →
      ep.number = e ∧
      (∃ pre post, episodes = pre ++ ep :: post ∧ ∀ ep' ∈ pre, ep'.number ≠ e) ∧
      get_file_changes [f] show_name episodes =
        [⟨⟨f.parent, f.name⟩,
          ⟨f.parent, format_filename show_name s e ep.name (suffix f.name)⟩, true⟩]) := by
  constructor
  · intro hno
    have hfind : find_by_attr_number episodes e = none :=
      (find_by_attr_number_eq_none_iff episodes e).mpr hno
    refine ⟨hfind, ?_⟩
    simp [get_file_changes, hp, hfind, episodeNameStr]
  · intro ep hfind
    obtain ⟨hnum, pre, post, hsplit, hpre⟩ :=
      find_by_attr_number_eq_some episodes e ep hfind
    refine ⟨hnum, ⟨pre, post, hsplit, hpre⟩, ?_⟩
    simp [get_file_changes, hp, hfind, episodeNameStr]

/-- Witness for C5: the file `a_S01E03.mkv` against an episode list holding
only episode 1, producing a filename ending in `None.mkv`. -/
theorem get_file_changes_missing_episode_witness :
    find_by_attr_number [⟨"Pilot", 1, 7⟩] 3 = none ∧
    get_file_changes [⟨"d", "a_S01E03.mkv", true⟩] "Show" [⟨"Pilot", 1, 7⟩] =
      [⟨⟨"d", "a_S01E03.mkv"⟩,
        ⟨"d", format_filename "Show" 1 3 "None" (suffix "a_S01E03.mkv")⟩, true⟩] :=
  (get_file_changes_missing_episode "Show" [⟨"Pilot", 1, 7⟩]
    ⟨"d", "a_S01E03.mkv", true⟩ 1 3 (by decide)).1 (by decide)

/-- `TvSeason` (`api.py` lines 18-26): season name, episode count, number
and trakt id. The number comes from JSON and may in principle be any
integer. -/
structure TvSeason where
  name : String
  episode_count : Nat
  number : Int
  id : Nat
deriving DecidableEq

/-- How `TvFormatter.get_tv_season` resolves the season: directly from the
given number, or by consulting the interactive selector. -/
inductive SeasonChoice
  | explicit (s : TvSeason)
  | selector
deriving DecidableEq

/-- `TvFormatter.get_tv_season` (`main.py` lines 95-101): when the given
season number is truthy (Python `season_num and ...`: not `None`, not `0`)
and lies in `0 < season_num <= len(seasons)`, return `seasons[season_num - 1]`;
otherwise ask the selector. -/
def get_tv_season (seasons : List TvSeason) (season_num : Option Int) : SeasonChoice :=
  match season_num with
  | some n =>
    if h : n ≠ 0 ∧ 0 < n ∧ n ≤ (seasons.length : Int) then
      SeasonChoice.explicit (seasons.get ⟨(n - 1).toNat, by omega⟩)
    else SeasonChoice.selector
  | none => SeasonChoice.selector

/-- C6: the season is resolved from the explicit number exactly when
`0 < n` and `n` is at most the list length, in which case the result is the
element at 1-based position `n` of the list (a positional index, not a
lookup of the `number` field) with no selector involved; otherwise the
selector is consulted. -/
theorem get_tv_season_spec (seasons : List TvSeason) (n : Int) :
    (0 < n ∧ n ≤ (seasons.length : Int) →
      ∃ hlt : (n - 1).toNat < seasons.length,
        get_tv_season seasons (some n) =
          SeasonChoice.explicit (seasons.get ⟨(n - 1).toNat, hlt⟩)) ∧
    (¬(0 < n ∧ n ≤ (seasons.length : Int)) →
      get_tv_season seasons (some n) = SeasonChoice.selector) := by
  constructor
  · rintro ⟨h1, h2⟩
    have hlt : (n - 1).toNat < seasons.length := by omega
    refine ⟨hlt, ?_⟩
    show (if h : n ≠ 0 ∧ 0 < n ∧ n ≤ (seasons.length : Int) then
        SeasonChoice.explicit (seasons.get ⟨(n - 1).toNat, by omega⟩)
      else SeasonChoice.selector) = _
    rw [dif_pos ⟨by omega, h1, h2⟩]
  · intro hn
    show (if h : n ≠ 0 ∧ 0 < n ∧ n ≤ (seasons.length : Int) then
        SeasonChoice.explicit (seasons.get ⟨(n - 1).toNat, by omega⟩)
      else SeasonChoice.selector) = _
    rw [dif_neg]
    rintro ⟨_, h1, h2⟩
    exact hn ⟨h1, h2⟩

/-- Witness for C6: a two-season list whose `number` fields disagree with
their positions; season number 2 picks the second element positionally. -/
theorem get_tv_season_spec_witness :
    get_tv_season [⟨"Season 5", 10, 5, 100⟩, ⟨"Season 1", 8, 1, 101⟩] (some 2) =
      SeasonChoice.explicit ⟨"Season 1", 8, 1, 101⟩ := by
  obtain ⟨hlt, hh⟩ :=
    (get_tv_season_spec [⟨"Season 5", 10, 5, 100⟩, ⟨"Season 1", 8, 1, 101⟩] 2).1
      (by constructor <;> decide)
  rw [hh]
  rfl

/-- One element of the JSON array answering `shows/id/seasons` (`api.py`
lines 57-68), with the fields `get_show_seasons` reads. -/
structure SeasonResult where
  title : String
  episode_count : Nat
  number : Int
  trakt : Nat
deriving DecidableEq

/-- `TraktAPI.get_show_seasons` (`api.py` lines 57-68): keep response
entries in order, appending a `TvSeason` only when `number > 0`
(the `# Skip specials` guard). -/
def get_show_seasons : List SeasonResult → List TvSeason
  | [] => []
  | r :: rest =>
    if r.number > 0 then
      ⟨r.title, r.episode_count, r.number, r.trakt⟩ :: get_show_seasons rest
    else get_show_seasons rest

/-- C8: every season in a list returned by `get_show_seasons` has a strictly
positive number — specials are filtered at the provider boundary, so no
surfaced season list contains an entry with number at most 0. -/
theorem get_show_seasons_pos (data : List SeasonResult) :
    ∀ s ∈ get_show_seasons data, 0 < s.number := by
  induction data with
  | nil => intro s hs; exact absurd hs (by simp [get_show_seasons])
  | cons r rest ih =>
    intro s hs
    by_cases hr : r.number > 0
    · rw [get_show_seasons, if_pos hr] at hs
      rcases List.mem_cons.mp hs with rfl | hmem
      · exact hr
      · exact ih s hmem
    · rw [get_show_seasons, if_neg hr] at hs
      exact ih s hs

/-- Witness for C8: a response containing a specials entry (number 0); the
surviving season has positive number. -/
theorem get_show_seasons_pos_witness :
    (0 : Int) < (⟨"Season 1", 8, 1, 2⟩ : TvSeason).number :=
  get_show_seasons_pos [⟨"Specials", 5, 0, 1⟩, ⟨"Season 1", 8, 1, 2⟩]
    ⟨"Season 1", 8, 1, 2⟩ (by decide)

/-- Lexicographic order on character lists, as Python compares strings
(and hence `Path` objects sharing a parent) when `list.sort` runs. -/
def lexLe : List Char → List Char → Bool
  | [], _ => true
  | _ :: _, [] => false
  | a :: as, b :: bs => if a < b then true else if a = b then lexLe as bs else false

theorem lexLe_cons_iff (a b : Char) (as bs : List Char) :
    lexLe (a :: as) (b :: bs) = true ↔ a < b ∨ (a = b ∧ lexLe as bs = true) := by
  by_cases hab : a < b
  · simp [lexLe, hab]
  · by_cases heq : a = b
    · simp [lexLe, hab, heq]
    · simp [lexLe, hab, heq]

theorem lexLe_total : ∀ as bs : List Char, lexLe as bs = true ∨ lexLe bs as = true := by
  intro as
  induction as with
  | nil => intro bs; exact Or.inl rfl
  | cons a as ih =>
    intro bs
    cases bs with
    | nil => exact Or.inr rfl
    | cons b bs =>
      rcases lt_trichotomy a b with hlt | heq | hgt
      · exact Or.inl ((lexLe_cons_iff a b as bs).mpr (Or.inl hlt))
      · subst heq
        rcases ih bs with h | h
        · exact Or.inl ((lexLe_cons_iff a a as bs).mpr (Or.inr ⟨rfl, h⟩))
        · exact Or.inr ((lexLe_cons_iff a a bs as).mpr (Or.inr ⟨rfl, h⟩))
      · exact Or.inr ((lexLe_cons_iff b a bs as).mpr (Or.inl hgt))

theorem lexLe_trans : ∀ as bs cs : List Char,
    lexLe as bs = true → lexLe bs cs = true → lexLe as cs = true := by
  intro as
  induction as with
  | nil => intro bs cs _ _; rfl
  | cons a as ih =>
    intro bs cs h1 h2
    cases bs with
    | nil => exact Bool.noConfusion h1
    | cons b bs =>
      cases cs with
      | nil => exact Bool.noConfusion h2
      | cons c cs =>
        rcases (lexLe_cons_iff a b as bs).mp h1 with hab | ⟨hab, hr1⟩ <;>
          rcases (lexLe_cons_iff b c bs cs).mp h2 with hbc | ⟨hbc, hr2⟩
        · exact (lexLe_cons_iff a c as cs).mpr (Or.inl (lt_trans hab hbc))
        · exact (lexLe_cons_iff a c as cs).mpr (Or.inl (hbc ▸ hab))
        · exact (lexLe_cons_iff a c as cs).mpr (Or.inl (hab ▸ hbc))
        · exact (lexLe_cons_iff a c as cs).mpr
            (Or.inr ⟨hab.trans hbc, ih bs cs hr1 hr2⟩)

instance : IsTotal DirEntry (fun a b => lexLe a.name.data b.name.data = true) :=
  ⟨fun a b => lexLe_total a.name.data b.name.data⟩

instance : IsTrans DirEntry (fun a b => lexLe a.name.data b.name.data = true) :=
  ⟨fun a b c => lexLe_trans a.name.data b.name.data c.name.data⟩

/-- Python `name.startswith(".")`: the first character is a dot. -/
def startsWithDot (name : String) : Bool :=
  match name.data with
  | '.' :: _ => true
  | _ => false

/-- `utils.get_files` (`utils.py` lines 18-26): keep the entries that are
regular files and not dotfiles, in enumeration order, then sort ascending
when `sort` is set (the `run` call site uses the default `sort=True`). -/
def get_files (entries : List DirEntry) (sort : Bool) : List DirEntry :=
  let files := entries.filter (fun f => f.isFile && !(startsWithDot f.name))
  if sort then
    List.insertionSort (fun a b => lexLe a.name.data b.name.data = true) files
  else files

theorem get_file_changes_old_mem (files : List DirEntry) (show_name : String)
    (episodes : List TvEpisode) :
    ∀ c ∈ get_file_changes files show_name episodes,
      ∃ f ∈ files, c.old = ⟨f.parent, f.name⟩ := by
  induction files with
  | nil => intro c hc; exact absurd hc (by simp [get_file_changes])
  | cons f fs ih =>
    intro c hc
    rcases hp : parse_episode_file f.name with _ | ⟨s, e⟩
    · rw [show get_file_changes (f :: fs) show_name episodes =
          get_file_changes fs show_name episodes by
        simp [get_file_changes, hp]] at hc
      obtain ⟨g, hg, hold⟩ := ih c hc
      exact ⟨g, List.mem_cons_of_mem f hg, hold⟩
    · rw [show get_file_changes (f :: fs) show_name episodes =
          ⟨⟨f.parent, f.name⟩, ⟨f.parent,
            format_filename show_name s e
              (episodeNameStr (find_by_attr_number episodes e)) (suffix f.name)⟩,
            true⟩ :: get_file_changes fs show_name episodes by
        simp [get_file_changes, hp]] at hc
      rcases List.mem_cons.mp hc with rfl | hmem
      · exact ⟨f, List.mem_cons_self f fs, rfl⟩
      · obtain ⟨g, hg, hold⟩ := ih c hmem
        exact ⟨g, List.mem_cons_of_mem f hg, hold⟩

/-- C10: with sorting enabled, `get_files` returns only regular files whose
names do not start with a dot, sorted ascending by name (the path order
within one directory); consequently every old path in a rename plan built
over that listing is a non-dotfile. -/
theorem get_files_spec (entries : List DirEntry) (show_name : String)
    (episodes : List TvEpisode) :
    (∀ f ∈ get_files entries true, f.isFile = true ∧ startsWithDot f.name = false) ∧
    List.Sorted (fun a b : DirEntry => lexLe a.name.data b.name.data = true)
      (get_files entries true) ∧
    (∀ c ∈ get_file_changes (get_files entries true) show_name episodes,
      startsWithDot c.old.name = false) := by
  have hmem : ∀ f ∈ get_files entries true,
      f.isFile = true ∧ startsWithDot f.name = false := by
    intro f hf
    have hf' : f ∈ entries.filter (fun f => f.isFile && !(startsWithDot f.name)) :=
      (List.perm_insertionSort
        (fun a b : DirEntry => lexLe a.name.data b.name.data = true) _).mem_iff.mp hf
    have hp := (List.mem_filter.mp hf').2
    simp only [Bool.and_eq_true, Bool.not_eq_true'] at hp
    exact hp
  refine ⟨hmem, ?_, ?_⟩
  · exact List.sorted_insertionSort _ _
  · intro c hc
    obtain ⟨f, hf, hold⟩ := get_file_changes_old_mem _ show_name episodes c hc
    rw [hold]
    exact (hmem f hf).2

/-- Witness for C10 on a listing holding a dotfile, a directory and two
files out of name order. -/
theorem get_files_spec_witness :
    ((⟨"d", "a_S01E01.mkv", true⟩ : DirEntry).isFile = true ∧
      startsWithDot (⟨"d", "a_S01E01.mkv", true⟩ : DirEntry).name = false) ∧
    List.Sorted (fun a b : DirEntry => lexLe a.name.data b.name.data = true)
      (get_files [⟨"d", "b_S01E02.mkv", true⟩, ⟨"d", ".hidden", true⟩,
        ⟨"d", "sub", false⟩, ⟨"d", "a_S01E01.mkv", true⟩] true) :=
  ⟨(get_files_spec [⟨"d", "b_S01E02.mkv", true⟩, ⟨"d", ".hidden", true⟩,
      ⟨"d", "sub", false⟩, ⟨"d", "a_S01E01.mkv", true⟩] "Show" []).1
    ⟨"d", "a_S01E01.mkv", true⟩ (by decide),
   (get_files_spec [⟨"d", "b_S01E02.mkv", true⟩, ⟨"d", ".hidden", true⟩,
      ⟨"d", "sub", false⟩, ⟨"d", "a_S01E01.mkv", true⟩] "Show" []).2.1⟩

/-- `CliConfigKey` (`config.py` lines 9-12). -/
inductive CliConfigKey
  | TRAKT_API_KEY
  | AUTO
  | CONFIRM
deriving DecidableEq

/-- The `.value` string of each enum member. -/
def CliConfigKey.value : CliConfigKey → String
  | .TRAKT_API_KEY => "trakt_api_key"
  | .AUTO => "auto"
  | .CONFIRM => "confirm"

/-- State touched by `CliConfig.set`: the in-memory `ConfigParser` key-value
pairs of the `tvfmt` section and the persisted contents of `config.ini`
(kept as the same kind of key-value list, since `parser.write` serialises
the parser into the file). -/
structure ConfigState where
  memKVs : List (String × String)
  fileKVs : List (String × String)
deriving DecidableEq

/-- `ConfigParser.set`: replace the value of an existing key, else append. -/
def parserSet (kvs : List (String × String)) (k v : String) :
    List (String × String) :=
  match kvs with
  | [] => [(k, v)]
  | (k', v') :: rest =>
    if k' = k then (k, v) :: rest else (k', v') :: parserSet rest k v

/-- Python `str.lower`, character by character. -/
def lowerStr (s : String) : String := String.mk (s.data.map Char.toLower)

/-- Outcome of `CliConfig.set`: its boolean return value, the resulting
state, and whether the user-facing rejection message was printed. -/
structure SetResult where
  ok : Bool
  st : ConfigState
  printedMessage : Bool
deriving DecidableEq

/-- `CliConfig.set` (`config.py` lines 38-46): for `auto`/`confirm`, a value
whose lowercase form is neither `true` nor `false` is rejected with a
printed message and `False`, before any mutation; otherwise the parser is
updated and the whole parser rewritten to the file, returning `True`. -/
def CliConfig.set (st : ConfigState) (key : CliConfigKey) (value : String) :
    SetResult :=
  if (key = CliConfigKey.AUTO ∨ key = CliConfigKey.CONFIRM) ∧
      ¬(lowerStr value = "true" ∨ lowerStr value = "false") then
    ⟨false, st, true⟩
  else
    let p := parserSet st.memKVs key.value value
    ⟨true, ⟨p, p⟩, false⟩

/-- C7: setting `auto` or `confirm` to a non-boolean string returns `False`,
prints the message and leaves both the in-memory parser and the file
untouched; any other value (and any value at all for `trakt_api_key`)
updates the key and rewrites the file, returning `True`. -/
theorem config_set_spec (st : ConfigState) (key : CliConfigKey) (value : String) :
    ((key = CliConfigKey.AUTO ∨ key = CliConfigKey.CONFIRM) →
      lowerStr value ≠ "true" → lowerStr value ≠ "false" →
      CliConfig.set st key value = ⟨false, st, true⟩) ∧
    ((key = CliConfigKey.TRAKT_API_KEY ∨
        lowerStr value = "true" ∨ lowerStr value = "false") →
      CliConfig.set st key value =
        ⟨true, ⟨parserSet st.memKVs key.value value,
          parserSet st.memKVs key.value value⟩, false⟩) := by
  constructor
  · intro hkey h1 h2
    unfold CliConfig.set
    rw [if_pos ⟨hkey, fun h => h.elim h1 h2⟩]
  · intro hval
    unfold CliConfig.set
    rw [if_neg]
    rintro ⟨hkey, hbad⟩
    rcases hval with rfl | hv
    · rcases hkey with h | h <;> exact CliConfigKey.noConfusion h
    · exact hbad hv

/-- Witness for C7: rejecting `auto = maybe` leaves the state unchanged,
while `confirm = TRUE` (mixed case) is accepted and persisted. -/
theorem config_set_spec_witness :
    CliConfig.set ⟨[("auto", "False")], [("auto", "False")]⟩
      CliConfigKey.AUTO "maybe" =
      ⟨false, ⟨[("auto", "False")], [("auto", "False")]⟩, true⟩ ∧
    CliConfig.set ⟨[("confirm", "True")], [("confirm", "True")]⟩
      CliConfigKey.CONFIRM "TRUE" =
      ⟨true, ⟨[("confirm", "TRUE")], [("confirm", "TRUE")]⟩, false⟩ :=
  ⟨(config_set_spec ⟨[("auto", "False")], [("auto", "False")]⟩
      CliConfigKey.AUTO "maybe").1 (Or.inl rfl) (by decide) (by decide),
   (config_set_spec ⟨[("confirm", "True")], [("confirm", "True")]⟩
      CliConfigKey.CONFIRM "TRUE").2 (Or.inr (Or.inl (by decide)))⟩

/-- The old/new pair of a `PathChange` (`PathChange.paths`,
`main.py` lines 66-67). -/
def PathChange.paths (c : PathChange) : PyPath × PyPath := (c.old, c.new)

/-- `utils.rename_files` (`utils.py` lines 29-31), over an abstract rename
primitive `step` standing for `Path.rename` (which may raise an `OSError`,
modelled as `none`): apply the pairs sequentially in order; a raised error
propagates and stops the loop, leaving the renames already performed in
place (`Except.error` carries the filesystem state at the failure). -/
def rename_files (step : List PyPath → PyPath × PyPath → Option (List PyPath)) :
    List PyPath → List (PyPath × PyPath) → Except (List PyPath) (List PyPath)
  | fs, [] => Except.ok fs
  | fs, p :: ps =>
    match step fs p with
    | some fs' => rename_files step fs' ps
    | none => Except.error fs

/-- The decision tail of `TvFormatter.run` (`main.py` lines 163-166):
`rename_files` is reached only inside the `if user_confirm:` branch and only
after an affirmative answer to the confirmation prompt (`confirm_answer`
models the user's reply); with confirmation disabled the function falls
through to printing `Done!` without renaming anything. -/
def run_apply (step : List PyPath → PyPath × PyPath → Option (List PyPath))
    (fs : List PyPath) (changes : List PathChange)
    (user_confirm confirm_answer : Bool) : Except (List PyPath) (List PyPath) :=
  if user_confirm then
    if confirm_answer then rename_files step fs (changes.map PathChange.paths)
    else Except.ok fs
  else Except.ok fs

/-- C1 against the code: with user confirmation disabled, `run` performs no
rename at all — the filesystem is returned unchanged for every plan,
including non-empty ones (first conjunct; this contradicts the claim that
renames are still applied with the prompt skipped). The remaining conjuncts
record the sequencing the claim correctly describes for the confirmed path:
a failing rename halts the loop keeping prior renames in place, and a
successful rename simply continues with the rest of the plan in order. -/
theorem run_apply_c1
    (step : List PyPath → PyPath × PyPath → Option (List PyPath))
    (fs : List PyPath) (changes : List PathChange) (ans : Bool) :
    run_apply step fs changes false ans = Except.ok fs ∧
    (∀ p ps fs1, step fs1 p = none →
      rename_files step fs1 (p :: ps) = Except.error fs1) ∧
    (∀ p ps fs1 fs2, step fs1 p = some fs2 →
      rename_files step fs1 (p :: ps) = rename_files step fs2 ps) ∧
    (changes ≠ [] →
      run_apply step fs changes true true =
        rename_files step fs (changes.map PathChange.paths)) := by
  refine ⟨rfl, ?_, ?_, fun _ => rfl⟩
  · intro p ps fs1 hstep
    show (match step fs1 p with
      | some fs' => rename_files step fs' ps
      | none => Except.error fs1) = _
    rw [hstep]
  · intro p ps fs1 fs2 hstep
    show (match step fs1 p with
      | some fs' => rename_files step fs' ps
      | none => Except.error fs1) = _
    rw [hstep]

/-- Witness for C1's theorem: a concrete one-entry plan with confirmation
disabled leaves the one-file filesystem unchanged, and a failing rename
reports the untouched state. -/
theorem run_apply_c1_witness :
    run_apply (fun _ _ => none) [⟨"d", "a_S01E01.mkv"⟩]
      [⟨⟨"d", "a_S01E01.mkv"⟩, ⟨"d", "Show S01E01 Pilot.mkv"⟩, true⟩]
      false true = Except.ok [⟨"d", "a_S01E01.mkv"⟩] ∧
    rename_files (fun _ _ => none) [⟨"d", "a_S01E01.mkv"⟩]
      [(⟨"d", "a_S01E01.mkv"⟩, ⟨"d", "Show S01E01 Pilot.mkv"⟩)] =
      Except.error [⟨"d", "a_S01E01.mkv"⟩] :=
  ⟨(run_apply_c1 (fun _ _ => none) [⟨"d", "a_S01E01.mkv"⟩]
      [⟨⟨"d", "a_S01E01.mkv"⟩, ⟨"d", "Show S01E01 Pilot.mkv"⟩, true⟩] true).1,
   (run_apply_c1 (fun _ _ => none) [⟨"d", "a_S01E01.mkv"⟩]
      [⟨⟨"d", "a_S01E01.mkv"⟩, ⟨"d", "Show S01E01 Pilot.mkv"⟩, true⟩] true).2.1
     (⟨"d", "a_S01E01.mkv"⟩, ⟨"d", "Show S01E01 Pilot.mkv"⟩) []
     [⟨"d", "a_S01E01.mkv"⟩] rfl⟩

end Tvfmt
